import Mathlib

/-!
Verification of the interactive-fiction engine `if.py`.

The engine is a single Python file built on top of the `mecs`
entity-component store.  The store itself (entity creation, component
attach/lookup/replace, signature-based iteration) is not part of the
translated source, so it is modelled from the specification; everything
else below is a direct shallow embedding of the functions and command
handlers of `if.py`.
-/

namespace IFSpec

/-- The `Name` component of `if.py`: a display name plus an optional article.
`article = none` models Python's `article=None`. -/
structure NameC where
  name : String
  article : Option String
  deriving DecidableEq, Repr

/-- Modelled from the spec: the external entity-component store (`mecs.Scene`).
Entities are opaque identifiers (`Nat`), created sequentially by `new`;
all entity state is composed from attachable components, one store per
component kind (`has` is `Option.isSome`, `get` reads the store, `set`
replaces the component).  The component kinds are exactly those of
`if.py`: `Player`, `Name`, `Description`, `Inscription`, `Location`
(an entity reference), `Container` (an ordered list of entity
references), `Map` (an insertion-ordered mapping direction → entity)
and `Environment`. -/
structure Scene where
  nextId : Nat
  playerC : Nat → Bool
  nameC : Nat → Option NameC
  descC : Nat → Option String
  inscC : Nat → Option String
  locC : Nat → Option Nat
  contC : Nat → Option (List Nat)
  mapC : Nat → Option (List (String × Nat))
  envC : Nat → Option String

/-- Modelled from the spec: the empty store, before any entity is created. -/
def emptyScene : Scene :=
  ⟨0, fun _ => false, fun _ => none, fun _ => none, fun _ => none,
      fun _ => none, fun _ => none, fun _ => none, fun _ => none⟩

/-- Modelled from the spec: `scene.new()` allocates the next entity id. -/
def newEntity (s : Scene) : Nat × Scene :=
  (s.nextId, { s with nextId := s.nextId + 1 })

/-- Modelled from the spec: attach/replace the `Player` tag. -/
def setPlayer (s : Scene) (e : Nat) : Scene :=
  { s with playerC := fun n => if n = e then true else s.playerC n }

/-- Modelled from the spec: attach/replace a `Name` component. -/
def setName (s : Scene) (e : Nat) (v : NameC) : Scene :=
  { s with nameC := fun n => if n = e then some v else s.nameC n }

/-- Modelled from the spec: attach/replace a `Description` component. -/
def setDesc (s : Scene) (e : Nat) (v : String) : Scene :=
  { s with descC := fun n => if n = e then some v else s.descC n }

/-- Modelled from the spec: attach/replace an `Inscription` component. -/
def setInsc (s : Scene) (e : Nat) (v : String) : Scene :=
  { s with inscC := fun n => if n = e then some v else s.inscC n }

/-- Modelled from the spec: attach/replace a `Location` component. -/
def setLocation (s : Scene) (e : Nat) (v : Nat) : Scene :=
  { s with locC := fun n => if n = e then some v else s.locC n }

/-- Modelled from the spec: attach/replace a `Container` component. -/
def setContainer (s : Scene) (e : Nat) (v : List Nat) : Scene :=
  { s with contC := fun n => if n = e then some v else s.contC n }

/-- Modelled from the spec: attach/replace a `Map` component. -/
def setMap (s : Scene) (e : Nat) (v : List (String × Nat)) : Scene :=
  { s with mapC := fun n => if n = e then some v else s.mapC n }

/-- Modelled from the spec: attach/replace an `Environment` component. -/
def setEnv (s : Scene) (e : Nat) (v : String) : Scene :=
  { s with envC := fun n => if n = e then some v else s.envC n }

/-! ### String utilities mirroring the Python primitives used by `if.py` -/

/-- Python `str.lower()` (the engine only ever lowers ASCII text). -/
def pyLower (s : String) : String := ⟨s.data.map Char.toLower⟩

/-- Python `sep.join(parts)` for a non-empty separator as used by the
handlers (`" ".join(args)` and `", ".join(lst)`). -/
def joinWith (sep : String) : List String → String
  | [] => ""
  | [x] => x
  | x :: y :: xs => x ++ sep ++ joinWith sep (y :: xs)

/-- Whether the first list is an initial segment of the second. -/
def leadsWith : List Char → List Char → Bool
  | [], _ => true
  | a :: as, bs =>
    match bs with
    | [] => false
    | b :: rest => a == b && leadsWith as rest

/-- Worker for `pySplit`: scan left to right keeping the current piece
reversed in `acc`; whenever the piece ends with the (reversed) separator,
cut it.  This realises Python's leftmost non-overlapping `str.split`. -/
def splitAux (sepR : List Char) (n : Nat) : List Char → List Char → List (List Char)
  | [], acc => [acc.reverse]
  | c :: cs, acc =>
    if leadsWith sepR (c :: acc) then
      ((c :: acc).drop n).reverse :: splitAux sepR n cs []
    else
      splitAux sepR n cs (c :: acc)

/-- Python `s.split(sep)` for a non-empty separator string. -/
def pySplit (s sep : String) : List String :=
  match sep.data with
  | [] => [s]
  | _ :: _ => (splitAux sep.data.reverse sep.data.length s.data []).map (fun l => ⟨l⟩)

/-- Python `sep in s`: a non-empty separator occurs in `s` exactly when
splitting on it yields more than one part. -/
def containsSep (s sep : String) : Bool := (pySplit s sep).length != 1

/-! ### Components with behaviour -/

/-- Python `Name.get(definite=False)`: prepend `"the "` or the article
(when the article is present and non-empty, mirroring Python truthiness). -/
def NameC.get (n : NameC) (definite : Bool) : String :=
  let article :=
    match n.article with
    | some a => if a = "" then "" else if definite then "the " else a ++ " "
    | none => ""
  article ++ n.name

/-- Python `Name.match(string)`: case-insensitive exact match on the name. -/
def NameC.matchName (n : NameC) (string : String) : Bool :=
  pyLower string == pyLower n.name

/-! ### World-mutation helpers of `if.py` -/

/-- The fixed ten-direction opposite table of `maplink`. -/
def reversemap : List (String × String) :=
  [("north", "south"), ("south", "north"),
   ("west", "east"), ("east", "west"),
   ("northeast", "southwest"), ("southwest", "northeast"),
   ("southeast", "northwest"), ("northwest", "southeast"),
   ("up", "down"), ("down", "up")]

/-- Python `dict.__setitem__` on an insertion-ordered association list:
replace the value in place if the key is present, else append. -/
def dictSet : List (String × Nat) → String → Nat → List (String × Nat)
  | [], k, v => [(k, v)]
  | (k', v') :: rest, k, v =>
    if k' = k then (k, v) :: rest else (k', v') :: dictSet rest k v

/-- `maplink(scene, source, direction, destination)`: register the edge
`source --direction--> destination` and the inverse edge.  `none` models a
failed assert (unknown direction, or an endpoint missing `Map`). -/
def maplink (s : Scene) (source : Nat) (direction : String) (destination : Nat) :
    Option Scene :=
  match List.lookup direction reversemap with
  | none => none
  | some rev =>
    match s.mapC source, s.mapC destination with
    | some msrc, some _ =>
      let s1 := setMap s source (dictSet msrc direction destination)
      match s1.mapC destination with
      | some mdst => some (setMap s1 destination (dictSet mdst rev source))
      | none => none
    | _, _ => none

/-- `move(scene, entity, container)`: relocate `entity` into `container`.
`none` models a crash: a failed assert (`container` missing `Container`,
or the entity's current location missing `Container`) or `list.remove`
raising because the entity is absent from its location's member list. -/
def move (s : Scene) (entity container : Nat) : Option Scene :=
  match s.contC container with
  | none => none
  | some _ =>
    match s.locC entity with
    | some location =>
      match s.contC location with
      | none => none
      | some members =>
        if entity ∈ members then
          let s1 := setContainer s location (members.erase entity)
          let s2 := setLocation s1 entity container
          match s2.contC container with
          | some ms2 => some (setContainer s2 container (ms2 ++ [entity]))
          | none => none
        else none
    | none =>
      let s2 := setLocation s entity container
      match s2.contC container with
      | some ms2 => some (setContainer s2 container (ms2 ++ [entity]))
      | none => none

/-- `listjoin(lst, connector)`: render a sequence as a sentence list. -/
def listjoin (lst : List String) (connector : String) : String :=
  match lst with
  | [] => ""
  | [x] => x
  | _ :: _ :: _ =>
    joinWith (", ") lst.dropLast ++ " " ++ connector ++ " " ++ lst.getLastD ""

/-- Whether a candidate has a `Name` component matching `name`
(entities without a `Name` never match). -/
def nameMatches (s : Scene) (name : String) (eid : Nat) : Bool :=
  match s.nameC eid with
  | some n => n.matchName name
  | none => false

/-- `findByName(scene, name, container)`: the first entity id in the
candidate sequence whose `Name` matches, `none` when no candidate does. -/
def findByName (s : Scene) (name : String) (container : List Nat) : Option Nat :=
  container.find? (nameMatches s name)

/-! ### The command interpreter (`CommandSystem`)

Handlers that only read the world are embedded as `Option String`
(`none` models a failed assert or other uncaught exception, which
crashes the turn loop); handlers that may mutate the world return
`Option (String × Scene)`. -/

/-- The `_HELP` table of `CommandSystem`, in its insertion order. -/
def HELP : List (String × String) :=
  [("help", "Get help for a specific command with 'help <command>'."),
   ("look", "You can look at your environment with 'look' or at specific things with 'look <thing>'. The shorthand for 'look' is 'l'."),
   ("examine", "You can examine things with 'examine <thing>'. This is the same as 'look <thing>'. The shorthand for 'examine' is 'x'."),
   ("go", "You can move through the world with 'go <direction>' where north, south, west, east, northwest, northeast, southwest, southeast, up, and down are valid directions. Their shorthands are n, s, w, e, nw, ne, sw, se, u, and d. You can also use the direction directly, without writing 'go' explicitly. For instance to go north use 'go north' or 'north' or 'n'."),
   ("inventory", "You can view the things that you are carrying with this command. The shorthand is 'i'."),
   ("take", "To add something to your inventory use 'take <thing>'. To take something from a container use 'take <thing> from <container>'."),
   ("drop", "Drop things in your inventory with 'drop <thing>'. To drop something into a container use 'drop <thing> into <container>'."),
   ("read", "You can read a book or some other text with 'read <thing>'.")]

/-- `cmdHelp`: with exactly one argument, that command's help text (or the
no-such-command error); with any other argument count, the list of all
canonical command names. -/
def cmdHelp (args : List String) : String :=
  match args with
  | [cmd] =>
    match List.lookup cmd HELP with
    | none => "There is no such command. Try 'help' for a list or commands."
    | some h => h
  | _ =>
    (HELP.map Prod.fst).foldl (fun msg cmd => msg ++ "\n  " ++ cmd)
      ("Get further help with 'help <command>'.\nThe following commands are available:")

/-- `cmdLook`: describe the player's location (no arguments) or a named
thing found at the location or in the inventory. -/
def cmdLook (s : Scene) (player : Nat) (args : List String) : Option String :=
  match s.locC player, s.contC player with
  | some location, some pinv =>
    match args with
    | [] =>
      match s.nameC location, s.descC location, s.contC location, s.mapC location with
      | some lname, some ldesc, some lms, some lmap =>
        let things := lms.filter (fun eid =>
          eid != player && (s.nameC eid).isSome && !(s.envC eid).isSome)
        let env := lms.filterMap (fun eid =>
          match s.envC eid with
          | some t => if t = "" then none else some t
          | none => none)
        let msg := lname.get false ++ "\n\n" ++ ldesc
        let msg := if env.isEmpty then msg else msg ++ " " ++ joinWith (" ") env
        let msg := msg ++ "\n\n"
        let displaynames := things.filterMap (fun t =>
          (s.nameC t).map (fun nm => nm.get false))
        let msg :=
          if things.isEmpty then msg
          else msg ++ "Here " ++ (if displaynames.length > 1 then "are" else "is") ++
            " " ++ listjoin displaynames ("and") ++ ".\n\n"
        some (msg ++ "You can go " ++ listjoin (lmap.map Prod.fst) ("or") ++ ".")
      | _, _, _, _ => none
    | _ :: _ =>
      let name := joinWith (" ") args
      match s.contC location with
      | none => none
      | some lms =>
        match findByName s name (lms ++ pinv) with
        | none => some ("There is no such thing.")
        | some thing =>
          if !(s.descC thing).isSome && !(s.contC thing).isSome then
            match s.nameC thing with
            | some nm => some ("There is nothing special about " ++ nm.get true ++ ".")
            | none => none
          else
            let msg := match s.descC thing with
              | some d => d
              | none => ""
            match s.contC thing with
            | none => some msg
            | some tms =>
              let things := tms.filterMap (fun eid =>
                (s.nameC eid).map (fun nm => nm.get false))
              if things.isEmpty then some (msg ++ " It is empty.")
              else some (msg ++ " It contains " ++ listjoin things ("and") ++ ".")
  | _, _ => none

/-- `cmdExamine`: requires an argument, then delegates to `cmdLook`. -/
def cmdExamine (s : Scene) (player : Nat) (args : List String) : Option String :=
  match args with
  | [] => some ("You have to name a thing to examine.")
  | _ :: _ => cmdLook s player args

/-- The abbreviation table of `cmdGo`. -/
def expansion : List (String × String) :=
  [("n", "north"), ("s", "south"), ("w", "west"), ("e", "east"),
   ("nw", "northwest"), ("ne", "northeast"), ("sw", "southwest"), ("se", "southeast"),
   ("u", "up"), ("d", "down")]

/-- Expand an abbreviated direction via the fixed table, else keep it. -/
def expandDir (d : String) : String := (List.lookup d expansion).getD d

/-- `cmdGo`: move the player along a map edge and re-describe the room. -/
def cmdGo (s : Scene) (player : Nat) (args : List String) : Option (String × Scene) :=
  match args with
  | [] => some ("You have to name a direction to go towards.", s)
  | _ :: _ =>
    match s.locC player with
    | none => none
    | some location =>
      match s.mapC location with
      | none => none
      | some lmap =>
        let direction := expandDir (joinWith (" ") args)
        match List.lookup direction lmap with
        | none => some ("You cannot go this way.", s)
        | some destination =>
          match move s player destination with
          | none => none
          | some s1 =>
            match cmdLook s1 player [] with
            | none => none
            | some msg => some (msg, s1)

/-- `cmdNorth`: shorthand for `go north`. -/
def cmdNorth (s : Scene) (player : Nat) (args : List String) : Option (String × Scene) :=
  cmdGo s player ("north" :: args)

/-- `cmdSouth`: shorthand for `go south`. -/
def cmdSouth (s : Scene) (player : Nat) (args : List String) : Option (String × Scene) :=
  cmdGo s player ("south" :: args)

/-- `cmdEast`: shorthand for `go east`. -/
def cmdEast (s : Scene) (player : Nat) (args : List String) : Option (String × Scene) :=
  cmdGo s player ("east" :: args)

/-- `cmdWest`: shorthand for `go west`. -/
def cmdWest (s : Scene) (player : Nat) (args : List String) : Option (String × Scene) :=
  cmdGo s player ("west" :: args)

/-- `cmdNorthwest`: shorthand for `go northwest`. -/
def cmdNorthwest (s : Scene) (player : Nat) (args : List String) : Option (String × Scene) :=
  cmdGo s player ("northwest" :: args)

/-- `cmdSouthwest`: shorthand for `go southwest`. -/
def cmdSouthwest (s : Scene) (player : Nat) (args : List String) : Option (String × Scene) :=
  cmdGo s player ("southwest" :: args)

/-- `cmdNortheast`: shorthand for `go northeast`. -/
def cmdNortheast (s : Scene) (player : Nat) (args : List String) : Option (String × Scene) :=
  cmdGo s player ("northeast" :: args)

/-- `cmdSoutheast`: shorthand for `go southeast`. -/
def cmdSoutheast (s : Scene) (player : Nat) (args : List String) : Option (String × Scene) :=
  cmdGo s player ("southeast" :: args)

/-- `cmdUp`: shorthand for `go up`. -/
def cmdUp (s : Scene) (player : Nat) (args : List String) : Option (String × Scene) :=
  cmdGo s player ("up" :: args)

/-- `cmdDown`: shorthand for `go down`. -/
def cmdDown (s : Scene) (player : Nat) (args : List String) : Option (String × Scene) :=
  cmdGo s player ("down" :: args)

/-- `cmdInventory`: list the named things the player carries. -/
def cmdInventory (s : Scene) (player : Nat) (_args : List String) : Option String :=
  match s.contC player with
  | none => none
  | some inventory =>
    let names := inventory.filterMap (fun eid =>
      (s.nameC eid).map (fun nm => nm.get false))
    if names.isEmpty then some ("You are carrying nothing.")
    else some (names.foldl (fun msg n => msg ++ "\n  " ++ n)
      ("You carry the following things:"))

/-- Shared tail of `cmdTake` after the search scope has been fixed:
resolve the thing by name, apply the two rejection checks, then `move`. -/
def takeFrom (s : Scene) (player : Nat) (name : String) (scope : List Nat) :
    Option (String × Scene) :=
  match findByName s name scope with
  | none => some ("There is no such thing.", s)
  | some thing =>
    if s.locC thing = some player then some ("You already have that.", s)
    else if (s.envC thing).isSome then some ("You are unable to take that.", s)
    else
      match move s thing player with
      | none => none
      | some s1 => some ("Taken.", s1)

/-- `cmdTake`: add a thing to the inventory, optionally out of a named
container (`take <thing> from <container>`).  The clause split mirrors
Python's `name.split(" from ")` unpacked into exactly two variables:
three or more parts raise, modelled as `none`. -/
def cmdTake (s : Scene) (player : Nat) (args : List String) : Option (String × Scene) :=
  match args with
  | [] => some ("You have to name a thing to take.", s)
  | _ :: _ =>
    match s.locC player, s.contC player with
    | some location, some pinv =>
      match s.contC location with
      | none => none
      | some lms =>
        let name := joinWith (" ") args
        let scope := lms ++ pinv
        if containsSep name (" from ") then
          match pySplit name (" from ") with
          | [n, containername] =>
            match findByName s containername scope with
            | none => some ("There is no such container.", s)
            | some c =>
              match s.contC c with
              | none => some ("You cannot do that.", s)
              | some cms => takeFrom s player n cms
          | _ => none
        else takeFrom s player name scope
    | _, _ => none

/-- Shared tail of `cmdDrop` after the destination container entity has
been fixed: resolve the thing by name, apply the rejection checks, then
`move`.  The bare `assert scene.has(thing, Location)` is `none`. -/
def dropThing (s : Scene) (player : Nat) (name : String) (container : Nat)
    (scope : List Nat) : Option (String × Scene) :=
  match findByName s name scope with
  | none => some ("There is no such thing.", s)
  | some thing =>
    match s.locC thing with
    | none => none
    | some tloc =>
      if tloc ≠ player then some ("You do not have that.", s)
      else if thing = container then some ("You cannot do that.", s)
      else
        match move s thing container with
        | none => none
        | some s1 => some ("Dropped.", s1)

/-- `cmdDrop`: drop a thing from the inventory, optionally into a named
container (`drop <thing> into <container>`); the destination defaults to
the player's location. -/
def cmdDrop (s : Scene) (player : Nat) (args : List String) : Option (String × Scene) :=
  match args with
  | [] => some ("You have to name a thing to drop.", s)
  | _ :: _ =>
    match s.locC player, s.contC player with
    | some location, some pinv =>
      match s.contC location with
      | none => none
      | some lms =>
        let name := joinWith (" ") args
        if containsSep name (" into ") then
          match pySplit name (" into ") with
          | [n, containername] =>
            match findByName s containername (pinv ++ lms) with
            | none => some ("There is no such container.", s)
            | some c =>
              if !(s.contC c).isSome then some ("You cannot do that.", s)
              else dropThing s player n c (pinv ++ lms)
          | _ => none
        else dropThing s player name location (pinv ++ lms)
    | _, _ => none

/-- `cmdRead`: return the thing's `Inscription` text, quoted. -/
def cmdRead (s : Scene) (player : Nat) (args : List String) : Option String :=
  match args with
  | [] => some ("You have to name a thing you want to read.")
  | _ :: _ =>
    match s.contC player, s.locC player with
    | some pinv, some location =>
      match s.contC location with
      | none => none
      | some lms =>
        match findByName s (joinWith (" ") args) (pinv ++ lms) with
        | none => some ("There is no such thing.")
        | some thing =>
          match s.inscC thing with
          | none => some ("There is nothing to read.")
          | some txt => some ("It says: '" ++ txt ++ "'")
    | _, _ => none

/-- The fixed unknown-command message of `CommandSystem.onUpdate`. -/
def unknownMsg : String :=
  "You don't know how to do this, but you can always ask for 'help'."

/-- The keys of the `_COMMANDS` table, in its insertion order. -/
def COMMANDS : List String :=
  ["help", "look", "l", "examine", "x", "go",
   "north", "n", "south", "s", "west", "w", "east", "e",
   "northwest", "nw", "northeast", "ne", "southwest", "sw", "southeast", "se",
   "up", "u", "down", "d", "inventory", "i", "take", "drop", "read"]

/-- One turn of `CommandSystem.onUpdate` for one player: split the input
line into a command token and arguments, look the token up in the command
table and run the handler, or answer with the fixed unknown-command
message.  An empty token list models an empty input line, whose tuple
unpacking raises (`none`). -/
def dispatch (s : Scene) (player : Nat) (tokens : List String) :
    Option (String × Scene) :=
  match tokens with
  | [] => none
  | cmd :: args =>
    if cmd = "help" then some (cmdHelp args, s)
    else if cmd = "look" ∨ cmd = "l" then (cmdLook s player args).map (fun m => (m, s))
    else if cmd = "examine" ∨ cmd = "x" then (cmdExamine s player args).map (fun m => (m, s))
    else if cmd = "go" then cmdGo s player args
    else if cmd = "north" ∨ cmd = "n" then cmdNorth s player args
    else if cmd = "south" ∨ cmd = "s" then cmdSouth s player args
    else if cmd = "west" ∨ cmd = "w" then cmdWest s player args
    else if cmd = "east" ∨ cmd = "e" then cmdEast s player args
    else if cmd = "northwest" ∨ cmd = "nw" then cmdNorthwest s player args
    else if cmd = "northeast" ∨ cmd = "ne" then cmdNortheast s player args
    else if cmd = "southwest" ∨ cmd = "sw" then cmdSouthwest s player args
    else if cmd = "southeast" ∨ cmd = "se" then cmdSoutheast s player args
    else if cmd = "up" ∨ cmd = "u" then cmdUp s player args
    else if cmd = "down" ∨ cmd = "d" then cmdDown s player args
    else if cmd = "inventory" ∨ cmd = "i" then (cmdInventory s player args).map (fun m => (m, s))
    else if cmd = "take" then cmdTake s player args
    else if cmd = "drop" then cmdDrop s player args
    else if cmd = "read" then (cmdRead s player args).map (fun m => (m, s))
    else some (unknownMsg, s)

/-! ### The startup world of `main()`

Entity ids follow Python's left-to-right evaluation order of the nested
`scene.new(...)` calls: plant 0, picture 1, window 2, rug 3,
livingroom 4, tree 5, garden 6, player 7, book 8, box 9, die 10,
marble 11, shovel 12. -/

/-- The world state built by `main()` before the loop starts (`none`
would mean one of the build-time `maplink`/`move` calls crashed). -/
def mainBuild : Option Scene := do
  let s := emptyScene
  let (plant, s) := newEntity s
  let s := setName s plant ⟨"plant", some ("a")⟩
  let s := setDesc s plant ("It has seen better days.")
  let s := setEnv s plant ("Over in the corner there is a plant.")
  let (picture, s) := newEntity s
  let s := setName s picture ⟨"picture", some ("a")⟩
  let s := setDesc s picture ("A boat on a lake.")
  let s := setEnv s picture ("There is a picture on the wall.")
  let (window, s) := newEntity s
  let s := setName s window ⟨"window", some ("a")⟩
  let s := setDesc s window ("The sun is shining outside.")
  let s := setEnv s window ("On the west side of the room there is a window.")
  let (rug, s) := newEntity s
  let s := setName s rug ⟨"rug", some ("a")⟩
  let s := setDesc s rug ("An antique oriental rug.")
  let s := setEnv s rug ("There is a rug on the floor.")
  let (livingroom, s) := newEntity s
  let s := setName s livingroom ⟨"The Living Room", none⟩
  let s := setDesc s livingroom ("This is the living room.")
  let s := setContainer s livingroom [plant, picture, window, rug]
  let s := setMap s livingroom []
  let (tree, s) := newEntity s
  let s := setName s tree ⟨"tree", none⟩
  let s := setDesc s tree ("It's an apple tree.")
  let s := setEnv s tree ("In the middle of the garden is a large tree.")
  let (garden, s) := newEntity s
  let s := setName s garden ⟨"The Garden", none⟩
  let s := setDesc s garden ("This is the garden.")
  let s := setContainer s garden [tree]
  let s := setMap s garden []
  let s ← maplink s livingroom ("west") garden
  let (player, s) := newEntity s
  let s := setPlayer s player
  let s := setName s player ⟨"Player", none⟩
  let s := setDesc s player ("This is you.")
  let s := setContainer s player []
  let s ← move s player livingroom
  let (book, s) := newEntity s
  let s := setName s book ⟨"book", some ("a")⟩
  let s := setDesc s book ("'Alice's Adventures in Wonderland' by Lewis Carroll.")
  let s := setInsc s book ("Alice was beginning to get very tired of sitting by her sister on the bank, and of having nothing to do: once or twice she had peeped into the book her sister was reading, but it had no pictures or conversations in it, 'and what is the use of a book,' thought Alice 'without pictures or conversations?'")
  let s ← move s book livingroom
  let (box, s) := newEntity s
  let s := setName s box ⟨"box", some ("a")⟩
  let s := setDesc s box ("A box.")
  let s := setContainer s box []
  let s ← move s box livingroom
  let (dice, s) := newEntity s
  let s := setName s dice ⟨"die", some ("a")⟩
  let s := setDesc s dice ("A small die.")
  let s ← move s dice box
  let (marble, s) := newEntity s
  let s := setName s marble ⟨"marble", some ("a")⟩
  let s := setDesc s marble ("A white marble.")
  let s ← move s marble livingroom
  let (shovel, s) := newEntity s
  let s := setName s shovel ⟨"shovel", some ("a")⟩
  let s := setDesc s shovel ("A small chrome shovel.")
  let s ← move s shovel garden
  pure s

/-- The startup world (the build succeeds, see `mainBuild_eq`). -/
def startupScene : Scene := mainBuild.getD emptyScene

/-! ### The containment invariant -/

/-- The containment invariant actually maintained by the engine: every
member `m` of a `Container` occurs in it exactly once; if `m` carries a
`Location` it points back at the hosting entity and `m` is a member of
no other entity's `Container`; members lacking a `Location` carry an
`Environment` component (they are scenery, which `take` refuses to
move). -/
def Inv (s : Scene) : Prop :=
  ∀ c ms m, c < s.nextId → s.contC c = some ms → m ∈ ms →
    (∀ l, s.locC m = some l → l = c) ∧
    ms.count m = 1 ∧
    (∀ c' ms', c' < s.nextId → c' ≠ c → s.contC c' = some ms' → m ∉ ms') ∧
    (s.locC m = none → (s.envC m).isSome = true)

/-- Executable check of `Inv` over the entities of the store. -/
def invB (s : Scene) : Bool :=
  (List.range s.nextId).all fun c =>
    match s.contC c with
    | none => true
    | some ms => ms.all fun m =>
        (match s.locC m with
         | some l => l == c
         | none => (s.envC m).isSome) &&
        ((ms.count m == 1) &&
         ((List.range s.nextId).all fun c' =>
            (c' == c) ||
            (match s.contC c' with
             | none => true
             | some ms' => !(decide (m ∈ ms')))))

/-- The claim that every `Container` member has a `Location` pointing back
at the host and belongs to no other container, stated as it appears in
the specification (over all entities of the store). -/
def membersFullyLinked (s : Scene) : Bool :=
  (List.range s.nextId).all fun c =>
    match s.contC c with
    | none => true
    | some ms => ms.all fun m =>
        (s.locC m == some c) &&
        ((List.range s.nextId).all fun c' =>
          (c' == c) ||
          (match s.contC c' with
           | none => true
           | some ms' => !(decide (m ∈ ms'))))

/-- One state transition of the turn loop: some player-tagged entity has
an input line dispatched successfully, producing the new state. -/
def stepRel (s s' : Scene) : Prop :=
  ∃ p tokens msg, s.playerC p = true ∧ dispatch s p tokens = some (msg, s')

/-- States reachable from the startup world by commands. -/
def Reachable (s : Scene) : Prop :=
  Relation.ReflTransGen stepRel startupScene s

/-- The world state after `move(plant, player)` run directly on the startup
world (the plant is entity 0, the player entity 7). -/
def c1Scene : Scene := (move startupScene 0 7).getD emptyScene

/-- The world state after `move(book, box)` on the startup world
(the book is entity 8, the box entity 9). -/
def moveBookBox : Scene := (move startupScene 8 9).getD emptyScene

/-- A three-entity test world: an actor (1) inside a room (0) carrying a
thing (2) that has both an `Environment` component and a `Location`
pointing at the actor. -/
def c6Scene : Scene :=
  let s := emptyScene
  let (room, s) := newEntity s
  let (actor, s) := newEntity s
  let (gadget, s) := newEntity s
  let s := setContainer s room [actor]
  let s := setLocation s actor room
  let s := setContainer s actor [gadget]
  let s := setLocation s gadget actor
  let s := setName s gadget ⟨"gadget", none⟩
  setEnv s gadget ("glows")

/-- A two-entity test world in which both entities carry the same `Name`. -/
def dupScene : Scene :=
  let s := emptyScene
  let (g1, s) := newEntity s
  let (g2, s) := newEntity s
  let s := setName s g1 ⟨"gem", none⟩
  setName s g2 ⟨"gem", none⟩

/-- Soundness of the executable invariant check. -/
theorem Inv_of_invB (s : Scene) (h : invB s = true) : Inv s := by
  intro c ms m hc hcont hm
  rw [invB, List.all_eq_true] at h
  have h1 := h c (List.mem_range.mpr hc)
  rw [hcont, List.all_eq_true] at h1
  have h2 := h1 m hm
  rw [Bool.and_eq_true, Bool.and_eq_true] at h2
  obtain ⟨ha, hb, hall⟩ := h2
  refine ⟨?_, ?_, ?_, ?_⟩
  · intro l hl
    rw [hl] at ha
    simpa using ha
  · simpa using hb
  · intro c' ms' hc' hne hcont' hmem
    rw [List.all_eq_true] at hall
    have h3 := hall c' (List.mem_range.mpr hc')
    rw [Bool.or_eq_true, hcont'] at h3
    rcases h3 with h3 | h3
    · exact hne (by simpa using h3)
    · simp [hmem] at h3
  · intro hnone
    rw [hnone] at ha
    exact ha

/-! ### Properties of `move` -/

/-- Characterization of a successful `move`: the resulting stores, in
both the relocation case (the entity had a `Location`) and the fresh
case (it had none). -/
theorem move_eq_cases (s : Scene) (e c : Nat) (s' : Scene) (hm : move s e c = some s') :
    s'.nextId = s.nextId ∧
    s'.envC = s.envC ∧
    s'.playerC = s.playerC ∧
    (∀ n, n ≠ e → s'.locC n = s.locC n) ∧
    s'.locC e = some c ∧
    ∃ cs0, s.contC c = some cs0 ∧
      ((∃ loc ms, s.locC e = some loc ∧ s.contC loc = some ms ∧ e ∈ ms ∧
          ∀ n, s'.contC n =
            if n = c then some ((if c = loc then ms.erase e else cs0) ++ [e])
            else if n = loc then some (ms.erase e)
            else s.contC n) ∨
       (s.locC e = none ∧
          ∀ n, s'.contC n = if n = c then some (cs0 ++ [e]) else s.contC n)) := by
  unfold move at hm
  split at hm
  · exact absurd hm (by simp)
  next cs0 hcc =>
    split at hm
    next loc hle =>
      split at hm
      next hcl => exact absurd hm (by simp)
      next ms hcl =>
        split at hm
        next hmem =>
          simp only [setLocation, setContainer] at hm
          split at hm
          next ms2 hms2 =>
            have hms2e : ms2 = if c = loc then ms.erase e else cs0 := by
              by_cases hcloc : c = loc
              · rw [if_pos hcloc] at hms2 ⊢
                exact (Option.some_inj.mp hms2).symm
              · rw [if_neg hcloc] at hms2 ⊢
                rw [hcc] at hms2
                exact (Option.some_inj.mp hms2).symm
            subst ms2
            obtain rfl := Option.some_inj.mp hm
            refine ⟨rfl, rfl, rfl, ?_, ?_, cs0, hcc, Or.inl ⟨loc, ms, hle, hcl, hmem, ?_⟩⟩
            · intro n hn
              simp [hn]
            · simp
            · intro n
              rfl
          next => exact absurd hm (by simp)
        next hmem => exact absurd hm (by simp)
    next hle =>
      simp only [setLocation, setContainer] at hm
      split at hm
      next ms2 hms2 =>
        have hms2e : ms2 = cs0 := by
          rw [hcc] at hms2
          exact (Option.some_inj.mp hms2).symm
        subst ms2
        obtain rfl := Option.some_inj.mp hm
        refine ⟨rfl, rfl, rfl, ?_, ?_, cs0, hcc, Or.inr ⟨hle, ?_⟩⟩
        · intro n hn
          simp [hn]
        · simp
        · intro n
          rfl
      next => exact absurd hm (by simp)

/-- Preservation of the containment invariant by a successful `move`,
provided the moved entity either has a `Location` or belongs to no
container (the two situations in which the handlers invoke `move`). -/
theorem move_inv (s : Scene) (e c : Nat) (s' : Scene)
    (hInv : Inv s)
    (hside : s.locC e ≠ none ∨
      (∀ c' ms', c' < s.nextId → s.contC c' = some ms' → e ∉ ms'))
    (hm : move s e c = some s') : Inv s' := by
  obtain ⟨hnid, henv, hpl, hlocne, hloce, cs0, hcc, hcase⟩ := move_eq_cases s e c s' hm
  rcases hcase with ⟨loc, ms, hle, hcl, hmem, hcont⟩ | ⟨hle, hcont⟩
  · -- the entity had a location `loc`; every membership of `e` is hosted there
    have he_host : ∀ c' ms', c' < s.nextId → c' ≠ loc → s.contC c' = some ms' → e ∉ ms' := by
      intro c' ms' h1 h2 h3 hmm'
      exact h2 (((hInv c' ms' e h1 h3 hmm').1 loc hle).symm)
    intro c₀ ms₀ m hc₀ hcont₀ hm₀
    rw [hnid] at hc₀
    rw [hcont c₀] at hcont₀
    by_cases hme : m = e
    · subst hme
      have hc₀c : c₀ = c := by
        by_cases h1 : c₀ = c
        · exact h1
        · rw [if_neg h1] at hcont₀
          by_cases h2 : c₀ = loc
          · rw [if_pos h2] at hcont₀
            obtain rfl := Option.some_inj.mp hcont₀
            have hlt : loc < s.nextId := h2 ▸ hc₀
            have hcnt : ms.count m = 1 := (hInv loc ms m hlt hcl hmem).2.1
            have hno : m ∉ ms.erase m :=
              List.count_eq_zero.mp (by rw [List.count_erase_self, hcnt])
            exact absurd hm₀ hno
          · rw [if_neg h2] at hcont₀
            exact absurd hm₀ (he_host c₀ ms₀ hc₀ h2 hcont₀)
      subst hc₀c
      rw [if_pos rfl] at hcont₀
      obtain rfl := Option.some_inj.mp hcont₀
      refine ⟨?_, ?_, ?_, ?_⟩
      · intro l hl
        rw [hloce] at hl
        exact (Option.some_inj.mp hl).symm
      · rw [List.count_append]
        have h0 : (if c₀ = loc then ms.erase m else cs0).count m = 0 := by
          by_cases hcl0 : c₀ = loc
          · rw [if_pos hcl0]
            have hlt : loc < s.nextId := hcl0 ▸ hc₀
            have hcnt : ms.count m = 1 := (hInv loc ms m hlt hcl hmem).2.1
            rw [List.count_erase_self, hcnt]
          · rw [if_neg hcl0]
            exact List.count_eq_zero.mpr (he_host c₀ cs0 hc₀ hcl0 hcc)
        rw [h0]
        simp
      · intro c' ms' h1 h2 h3 hmm'
        rw [hnid] at h1
        rw [hcont c'] at h3
        rw [if_neg h2] at h3
        by_cases h4 : c' = loc
        · rw [if_pos h4] at h3
          obtain rfl := Option.some_inj.mp h3
          have hlt : loc < s.nextId := h4 ▸ h1
          have hcnt : ms.count m = 1 := (hInv loc ms m hlt hcl hmem).2.1
          have hno : m ∉ ms.erase m :=
            List.count_eq_zero.mp (by rw [List.count_erase_self, hcnt])
          exact hno hmm'
        · rw [if_neg h4] at h3
          exact he_host c' ms' h1 h4 h3 hmm'
      · intro hl
        rw [hloce] at hl
        exact absurd hl (by simp)
    · -- a bystander member `m`: find its original host list
      have key : ∃ msO, s.contC c₀ = some msO ∧ m ∈ msO ∧ ms₀.count m = msO.count m := by
        have hce : ([e].count m) = 0 := List.count_eq_zero.mpr (by simp [hme])
        by_cases h1 : c₀ = c
        · rw [if_pos h1] at hcont₀
          obtain rfl := Option.some_inj.mp hcont₀
          have hmx : m ∈ (if c = loc then ms.erase e else cs0) := by
            rcases List.mem_append.mp hm₀ with h | h
            · exact h
            · exact absurd (List.mem_singleton.mp h) hme
          by_cases h2 : c = loc
          · refine ⟨ms, ?_, ?_, ?_⟩
            · rw [h1, h2]
              exact hcl
            · rw [if_pos h2] at hmx
              exact List.mem_of_mem_erase hmx
            · rw [List.count_append, if_pos h2, List.count_erase_of_ne hme, hce, Nat.add_zero]
          · refine ⟨cs0, h1 ▸ hcc, ?_, ?_⟩
            · rwa [if_neg h2] at hmx
            · rw [List.count_append, if_neg h2, hce, Nat.add_zero]
        · rw [if_neg h1] at hcont₀
          by_cases h2 : c₀ = loc
          · rw [if_pos h2] at hcont₀
            obtain rfl := Option.some_inj.mp hcont₀
            exact ⟨ms, h2 ▸ hcl, List.mem_of_mem_erase hm₀,
              List.count_erase_of_ne hme ms⟩
          · rw [if_neg h2] at hcont₀
            exact ⟨ms₀, hcont₀, hm₀, rfl⟩
      obtain ⟨msO, hmsO, hmO, hcnt₀⟩ := key
      have hI := hInv c₀ msO m hc₀ hmsO hmO
      refine ⟨?_, ?_, ?_, ?_⟩
      · intro l hl
        rw [hlocne m hme] at hl
        exact hI.1 l hl
      · rw [hcnt₀]
        exact hI.2.1
      · intro c' ms' h1 h2 h3 hmm'
        rw [hnid] at h1
        rw [hcont c'] at h3
        by_cases h4 : c' = c
        · rw [if_pos h4] at h3
          obtain rfl := Option.some_inj.mp h3
          have hmx : m ∈ (if c = loc then ms.erase e else cs0) := by
            rcases List.mem_append.mp hmm' with h | h
            · exact h
            · exact absurd (List.mem_singleton.mp h) hme
          by_cases h5 : c = loc
          · rw [if_pos h5] at hmx
            exact hI.2.2.1 loc ms (h5 ▸ h4 ▸ h1) (h5 ▸ h4 ▸ h2) hcl
              (List.mem_of_mem_erase hmx)
          · rw [if_neg h5] at hmx
            exact hI.2.2.1 c cs0 (h4 ▸ h1) (h4 ▸ h2) hcc hmx
        · rw [if_neg h4] at h3
          by_cases h5 : c' = loc
          · rw [if_pos h5] at h3
            obtain rfl := Option.some_inj.mp h3
            exact hI.2.2.1 loc ms (h5 ▸ h1) (h5 ▸ h2) hcl (List.mem_of_mem_erase hmm')
          · rw [if_neg h5] at h3
            exact hI.2.2.1 c' ms' h1 h2 h3 hmm'
      · intro hl
        rw [hlocne m hme] at hl
        rw [henv]
        exact hI.2.2.2 hl
  · -- the entity had no location: by the side condition it is nowhere a member
    have hfar : ∀ c' ms', c' < s.nextId → s.contC c' = some ms' → e ∉ ms' := by
      rcases hside with h | h
      · exact absurd hle h
      · exact h
    intro c₀ ms₀ m hc₀ hcont₀ hm₀
    rw [hnid] at hc₀
    rw [hcont c₀] at hcont₀
    by_cases hme : m = e
    · subst hme
      have hc₀c : c₀ = c := by
        by_cases h1 : c₀ = c
        · exact h1
        · rw [if_neg h1] at hcont₀
          exact absurd hm₀ (hfar c₀ ms₀ hc₀ hcont₀)
      subst hc₀c
      rw [if_pos rfl] at hcont₀
      obtain rfl := Option.some_inj.mp hcont₀
      refine ⟨?_, ?_, ?_, ?_⟩
      · intro l hl
        rw [hloce] at hl
        exact (Option.some_inj.mp hl).symm
      · rw [List.count_append, List.count_eq_zero.mpr (hfar c₀ cs0 hc₀ hcc)]
        simp
      · intro c' ms' h1 h2 h3 hmm'
        rw [hnid] at h1
        rw [hcont c'] at h3
        rw [if_neg h2] at h3
        exact hfar c' ms' h1 h3 hmm'
      · intro hl
        rw [hloce] at hl
        exact absurd hl (by simp)
    · have key : ∃ msO, s.contC c₀ = some msO ∧ m ∈ msO ∧ ms₀.count m = msO.count m := by
        have hce : ([e].count m) = 0 := List.count_eq_zero.mpr (by simp [hme])
        by_cases h1 : c₀ = c
        · rw [if_pos h1] at hcont₀
          obtain rfl := Option.some_inj.mp hcont₀
          refine ⟨cs0, h1 ▸ hcc, ?_, ?_⟩
          · rcases List.mem_append.mp hm₀ with h | h
            · exact h
            · exact absurd (List.mem_singleton.mp h) hme
          · rw [List.count_append, hce, Nat.add_zero]
        · rw [if_neg h1] at hcont₀
          exact ⟨ms₀, hcont₀, hm₀, rfl⟩
      obtain ⟨msO, hmsO, hmO, hcnt₀⟩ := key
      have hI := hInv c₀ msO m hc₀ hmsO hmO
      refine ⟨?_, ?_, ?_, ?_⟩
      · intro l hl
        rw [hlocne m hme] at hl
        exact hI.1 l hl
      · rw [hcnt₀]
        exact hI.2.1
      · intro c' ms' h1 h2 h3 hmm'
        rw [hnid] at h1
        rw [hcont c'] at h3
        by_cases h4 : c' = c
        · rw [if_pos h4] at h3
          obtain rfl := Option.some_inj.mp h3
          have hmx : m ∈ cs0 := by
            rcases List.mem_append.mp hmm' with h | h
            · exact h
            · exact absurd (List.mem_singleton.mp h) hme
          exact hI.2.2.1 c cs0 (h4 ▸ h1) (h4 ▸ h2) hcc hmx
        · rw [if_neg h4] at h3
          exact hI.2.2.1 c' ms' h1 h2 h3 hmm'
      · intro hl
        rw [hlocne m hme] at hl
        rw [henv]
        exact hI.2.2.2 hl

/-! ### Invariant preservation by the command handlers -/

/-- A handler embedded as a pure reader leaves the state unchanged. -/
theorem map_state_eq {o : Option String} {s s' : Scene} {msg : String}
    (h : (o.map fun m => (m, s)) = some (msg, s')) : s' = s := by
  cases o <;> simp_all

theorem takeFrom_inv (s : Scene) (p : Nat) (name : String) (scope : List Nat)
    (msg : String) (s' : Scene) (hInv : Inv s)
    (hm : takeFrom s p name scope = some (msg, s')) : Inv s' := by
  unfold takeFrom at hm
  split at hm
  · obtain ⟨rfl, rfl⟩ := Prod.mk.injEq .. ▸ Option.some_inj.mp hm
    exact hInv
  next thing hfind =>
    split at hm
    · obtain ⟨rfl, rfl⟩ := Prod.mk.injEq .. ▸ Option.some_inj.mp hm
      exact hInv
    next hlocp =>
      split at hm
      · obtain ⟨rfl, rfl⟩ := Prod.mk.injEq .. ▸ Option.some_inj.mp hm
        exact hInv
      next henvb =>
        split at hm
        · exact absurd hm (by simp)
        next s1 hmv =>
          obtain ⟨rfl, rfl⟩ := Prod.mk.injEq .. ▸ Option.some_inj.mp hm
          cases hle : s.locC thing with
          | some l => exact move_inv s thing p s1 hInv (Or.inl (by simp [hle])) hmv
          | none =>
            refine move_inv s thing p s1 hInv (Or.inr ?_) hmv
            intro c' ms' h1 h2 hmm'
            have h4 := (hInv c' ms' thing h1 h2 hmm').2.2.2 hle
            simp at henvb
            rw [henvb] at h4
            simp at h4

theorem cmdGo_inv (s : Scene) (p : Nat) (args : List String)
    (msg : String) (s' : Scene) (hInv : Inv s)
    (hm : cmdGo s p args = some (msg, s')) : Inv s' := by
  unfold cmdGo at hm
  split at hm
  · obtain ⟨rfl, rfl⟩ := Prod.mk.injEq .. ▸ Option.some_inj.mp hm
    exact hInv
  · split at hm
    · exact absurd hm (by simp)
    next location hloc =>
      split at hm
      · exact absurd hm (by simp)
      next lmap hmap =>
        dsimp only [] at hm
        split at hm
        · obtain ⟨rfl, rfl⟩ := Prod.mk.injEq .. ▸ Option.some_inj.mp hm
          exact hInv
        next dest hdest =>
          split at hm
          · exact absurd hm (by simp)
          next s1 hmv =>
            split at hm
            · exact absurd hm (by simp)
            next m hlook =>
              obtain ⟨rfl, rfl⟩ := Prod.mk.injEq .. ▸ Option.some_inj.mp hm
              exact move_inv s p dest s1 hInv (Or.inl (by simp [hloc])) hmv

theorem dropThing_inv (s : Scene) (p : Nat) (name : String) (container : Nat)
    (scope : List Nat) (msg : String) (s' : Scene) (hInv : Inv s)
    (hm : dropThing s p name container scope = some (msg, s')) : Inv s' := by
  unfold dropThing at hm
  split at hm
  · obtain ⟨rfl, rfl⟩ := Prod.mk.injEq .. ▸ Option.some_inj.mp hm
    exact hInv
  next thing hfind =>
    split at hm
    · exact absurd hm (by simp)
    next tloc htloc =>
      split at hm
      · obtain ⟨rfl, rfl⟩ := Prod.mk.injEq .. ▸ Option.some_inj.mp hm
        exact hInv
      · split at hm
        · obtain ⟨rfl, rfl⟩ := Prod.mk.injEq .. ▸ Option.some_inj.mp hm
          exact hInv
        · split at hm
          · exact absurd hm (by simp)
          next s1 hmv =>
            obtain ⟨rfl, rfl⟩ := Prod.mk.injEq .. ▸ Option.some_inj.mp hm
            exact move_inv s thing container s1 hInv (Or.inl (by simp [htloc])) hmv

theorem cmdTake_inv (s : Scene) (p : Nat) (args : List String)
    (msg : String) (s' : Scene) (hInv : Inv s)
    (hm : cmdTake s p args = some (msg, s')) : Inv s' := by
  unfold cmdTake at hm
  split at hm
  · obtain ⟨rfl, rfl⟩ := Prod.mk.injEq .. ▸ Option.some_inj.mp hm
    exact hInv
  · split at hm
    next location pinv hloc hpc =>
      split at hm
      · exact absurd hm (by simp)
      next lms hlms =>
        dsimp only [] at hm
        split at hm
        · split at hm
          next n cname hsplit =>
            split at hm
            · obtain ⟨rfl, rfl⟩ := Prod.mk.injEq .. ▸ Option.some_inj.mp hm
              exact hInv
            next cEid hcfind =>
              split at hm
              · obtain ⟨rfl, rfl⟩ := Prod.mk.injEq .. ▸ Option.some_inj.mp hm
                exact hInv
              next cms hcms =>
                exact takeFrom_inv s p n cms msg s' hInv hm
          · exact absurd hm (by simp)
        · exact takeFrom_inv s p _ _ msg s' hInv hm
    · exact absurd hm (by simp)

theorem cmdDrop_inv (s : Scene) (p : Nat) (args : List String)
    (msg : String) (s' : Scene) (hInv : Inv s)
    (hm : cmdDrop s p args = some (msg, s')) : Inv s' := by
  unfold cmdDrop at hm
  split at hm
  · obtain ⟨rfl, rfl⟩ := Prod.mk.injEq .. ▸ Option.some_inj.mp hm
    exact hInv
  · split at hm
    next location pinv hloc hpc =>
      split at hm
      · exact absurd hm (by simp)
      next lms hlms =>
        dsimp only [] at hm
        split at hm
        · split at hm
          next n cname hsplit =>
            split at hm
            · obtain ⟨rfl, rfl⟩ := Prod.mk.injEq .. ▸ Option.some_inj.mp hm
              exact hInv
            next cEid hcfind =>
              split at hm
              · obtain ⟨rfl, rfl⟩ := Prod.mk.injEq .. ▸ Option.some_inj.mp hm
                exact hInv
              · exact dropThing_inv s p n cEid _ msg s' hInv hm
          · exact absurd hm (by simp)
        · exact dropThing_inv s p _ location _ msg s' hInv hm
    · exact absurd hm (by simp)

theorem dispatch_cons_eq (s : Scene) (p : Nat) (cmd : String) (args : List String) :
    dispatch s p (cmd :: args) =
      (if cmd = "help" then some (cmdHelp args, s)
      else if cmd = "look" ∨ cmd = "l" then (cmdLook s p args).map (fun m => (m, s))
      else if cmd = "examine" ∨ cmd = "x" then (cmdExamine s p args).map (fun m => (m, s))
      else if cmd = "go" then cmdGo s p args
      else if cmd = "north" ∨ cmd = "n" then cmdNorth s p args
      else if cmd = "south" ∨ cmd = "s" then cmdSouth s p args
      else if cmd = "west" ∨ cmd = "w" then cmdWest s p args
      else if cmd = "east" ∨ cmd = "e" then cmdEast s p args
      else if cmd = "northwest" ∨ cmd = "nw" then cmdNorthwest s p args
      else if cmd = "northeast" ∨ cmd = "ne" then cmdNortheast s p args
      else if cmd = "southwest" ∨ cmd = "sw" then cmdSouthwest s p args
      else if cmd = "southeast" ∨ cmd = "se" then cmdSoutheast s p args
      else if cmd = "up" ∨ cmd = "u" then cmdUp s p args
      else if cmd = "down" ∨ cmd = "d" then cmdDown s p args
      else if cmd = "inventory" ∨ cmd = "i" then (cmdInventory s p args).map (fun m => (m, s))
      else if cmd = "take" then cmdTake s p args
      else if cmd = "drop" then cmdDrop s p args
      else if cmd = "read" then (cmdRead s p args).map (fun m => (m, s))
      else some (unknownMsg, s)) := rfl

theorem dispatch_inv (s : Scene) (p : Nat) (tokens : List String)
    (msg : String) (s' : Scene) (hInv : Inv s)
    (hm : dispatch s p tokens = some (msg, s')) : Inv s' := by
  match tokens with
  | [] => exact Option.noConfusion hm
  | cmd :: args =>
    rw [dispatch_cons_eq] at hm
    by_cases h1 : cmd = "help"
    · rw [if_pos h1] at hm
      exact ((Prod.mk.injEq .. ▸ Option.some_inj.mp hm).2 ▸ hInv)
    · rw [if_neg h1] at hm
      by_cases h2 : cmd = "look" ∨ cmd = "l"
      · rw [if_pos h2] at hm
        exact (map_state_eq hm) ▸ hInv
      · rw [if_neg h2] at hm
        by_cases h3 : cmd = "examine" ∨ cmd = "x"
        · rw [if_pos h3] at hm
          exact (map_state_eq hm) ▸ hInv
        · rw [if_neg h3] at hm
          by_cases h4 : cmd = "go"
          · rw [if_pos h4] at hm
            exact cmdGo_inv s p _ msg s' hInv hm
          · rw [if_neg h4] at hm
            by_cases h5 : cmd = "north" ∨ cmd = "n"
            · rw [if_pos h5] at hm
              exact cmdGo_inv s p _ msg s' hInv hm
            · rw [if_neg h5] at hm
              by_cases h6 : cmd = "south" ∨ cmd = "s"
              · rw [if_pos h6] at hm
                exact cmdGo_inv s p _ msg s' hInv hm
              · rw [if_neg h6] at hm
                by_cases h7 : cmd = "west" ∨ cmd = "w"
                · rw [if_pos h7] at hm
                  exact cmdGo_inv s p _ msg s' hInv hm
                · rw [if_neg h7] at hm
                  by_cases h8 : cmd = "east" ∨ cmd = "e"
                  · rw [if_pos h8] at hm
                    exact cmdGo_inv s p _ msg s' hInv hm
                  · rw [if_neg h8] at hm
                    by_cases h9 : cmd = "northwest" ∨ cmd = "nw"
                    · rw [if_pos h9] at hm
                      exact cmdGo_inv s p _ msg s' hInv hm
                    · rw [if_neg h9] at hm
                      by_cases h10 : cmd = "northeast" ∨ cmd = "ne"
                      · rw [if_pos h10] at hm
                        exact cmdGo_inv s p _ msg s' hInv hm
                      · rw [if_neg h10] at hm
                        by_cases h11 : cmd = "southwest" ∨ cmd = "sw"
                        · rw [if_pos h11] at hm
                          exact cmdGo_inv s p _ msg s' hInv hm
                        · rw [if_neg h11] at hm
                          by_cases h12 : cmd = "southeast" ∨ cmd = "se"
                          · rw [if_pos h12] at hm
                            exact cmdGo_inv s p _ msg s' hInv hm
                          · rw [if_neg h12] at hm
                            by_cases h13 : cmd = "up" ∨ cmd = "u"
                            · rw [if_pos h13] at hm
                              exact cmdGo_inv s p _ msg s' hInv hm
                            · rw [if_neg h13] at hm
                              by_cases h14 : cmd = "down" ∨ cmd = "d"
                              · rw [if_pos h14] at hm
                                exact cmdGo_inv s p _ msg s' hInv hm
                              · rw [if_neg h14] at hm
                                by_cases h15 : cmd = "inventory" ∨ cmd = "i"
                                · rw [if_pos h15] at hm
                                  exact (map_state_eq hm) ▸ hInv
                                · rw [if_neg h15] at hm
                                  by_cases h16 : cmd = "take"
                                  · rw [if_pos h16] at hm
                                    exact cmdTake_inv s p args msg s' hInv hm
                                  · rw [if_neg h16] at hm
                                    by_cases h17 : cmd = "drop"
                                    · rw [if_pos h17] at hm
                                      exact cmdDrop_inv s p args msg s' hInv hm
                                    · rw [if_neg h17] at hm
                                      by_cases h18 : cmd = "read"
                                      · rw [if_pos h18] at hm
                                        exact (map_state_eq hm) ▸ hInv
                                      · rw [if_neg h18] at hm
                                        exact ((Prod.mk.injEq .. ▸ Option.some_inj.mp hm).2 ▸ hInv)

/-! ### Lookup lemmas for the direction dictionaries -/

theorem lookup_cons_self {β : Type} (k : String) (v : β) (rest : List (String × β)) :
    List.lookup k ((k, v) :: rest) = some v := by
  simp [List.lookup]

theorem lookup_cons_ne {β : Type} (k : String) (v : β) (rest : List (String × β))
    (k' : String) (h : k' ≠ k) : List.lookup k' ((k, v) :: rest) = List.lookup k' rest := by
  have hb : (k' == k) = false := beq_eq_false_iff_ne.mpr h
  simp [List.lookup, hb]

theorem lookup_mem {β : Type} (k : String) (v : β) (l : List (String × β))
    (h : List.lookup k l = some v) : (k, v) ∈ l := by
  induction l with
  | nil => simp [List.lookup] at h
  | cons hd tl ih =>
    obtain ⟨k', v'⟩ := hd
    by_cases hk : k = k'
    · subst hk
      rw [lookup_cons_self] at h
      obtain rfl := Option.some_inj.mp h
      exact List.mem_cons_self _ _
    · rw [lookup_cons_ne _ _ _ _ hk] at h
      exact List.mem_cons_of_mem _ (ih h)

theorem reversemap_ne (d rev : String) (h : (d, rev) ∈ reversemap) : rev ≠ d := by
  have hall : reversemap.all (fun pr => pr.2 != pr.1) = true := by decide
  simpa using List.all_eq_true.mp hall _ h

theorem lookup_dictSet_self (m : List (String × Nat)) (k : String) (v : Nat) :
    List.lookup k (dictSet m k v) = some v := by
  induction m with
  | nil => simp [dictSet, List.lookup]
  | cons hd tl ih =>
    obtain ⟨k', v'⟩ := hd
    by_cases h : k' = k
    · rw [dictSet, if_pos h]
      exact lookup_cons_self k v tl
    · rw [dictSet, if_neg h]
      rw [lookup_cons_ne _ _ _ _ (fun hh => h hh.symm)]
      exact ih

theorem lookup_dictSet_ne (m : List (String × Nat)) (k k' : String) (v : Nat)
    (h : k' ≠ k) : List.lookup k' (dictSet m k v) = List.lookup k' m := by
  induction m with
  | nil =>
    have hb : (k' == k) = false := beq_eq_false_iff_ne.mpr h
    simp [dictSet, List.lookup, hb]
  | cons hd tl ih =>
    obtain ⟨k'', v''⟩ := hd
    by_cases h2 : k'' = k
    · rw [dictSet, if_pos h2]
      rw [lookup_cons_ne _ _ _ _ h, h2]
      rw [lookup_cons_ne _ _ _ _ (h2 ▸ h)]
    · rw [dictSet, if_neg h2]
      by_cases h3 : k' = k''
      · subst h3
        rw [lookup_cons_self, lookup_cons_self]
      · rw [lookup_cons_ne _ _ _ _ h3, lookup_cons_ne _ _ _ _ h3]
        exact ih


/-! ### The claims -/

/-- C1 counterexample: the claim quantifies over every entity `e` and every
container `c`.  Taking `e` to be the plant (entity 0, a member of the
living room without a `Location`) and `c` the player (entity 7, which
carries a `Container`), `move` returns, sets `Location(plant) = player`
and appends the plant to the player's members — but the plant is still a
member of the living room (entity 4), so afterwards it appears in two
containers' memberships, not exactly one. -/
theorem move_not_exclusive_cx :
    (move startupScene 0 7).isSome = true ∧
    (startupScene.contC 7).isSome = true ∧
    c1Scene.locC 0 = some 7 ∧
    0 ∈ (c1Scene.contC 7).getD [] ∧
    0 ∈ (c1Scene.contC 4).getD [] ∧
    (4 : Nat) ≠ 7 := by
  decide

/-- C1 (amended): for a state satisfying the containment invariant and an
entity that either has a `Location` or is in no container's membership,
after `move(e, c)` returns: `Location(e) = c`, `e` is a member of
`Container(c)` exactly once, `e` is absent from the membership of the
container its previous `Location` referenced provided that container is
distinct from `c`, and `e` appears in no container's membership other
than `c`'s. -/
theorem move_spec (s : Scene) (e c : Nat) (s' : Scene)
    (hInv : Inv s) (hc : c < s.nextId)
    (hside : s.locC e ≠ none ∨
      (∀ c' ms', c' < s.nextId → s.contC c' = some ms' → e ∉ ms'))
    (hm : move s e c = some s') :
    s'.locC e = some c ∧
    (∃ ms, s'.contC c = some ms ∧ e ∈ ms ∧ ms.count e = 1) ∧
    (∀ prev pms, prev < s.nextId → s.locC e = some prev → prev ≠ c →
      s'.contC prev = some pms → e ∉ pms) ∧
    (∀ c₀ ms₀, c₀ < s'.nextId → s'.contC c₀ = some ms₀ → e ∈ ms₀ → c₀ = c) := by
  have hInv' := move_inv s e c s' hInv hside hm
  obtain ⟨hnid, henv, hpl, hlocne, hloce, cs0, hcc, hcase⟩ := move_eq_cases s e c s' hm
  have hc' : c < s'.nextId := by rw [hnid]; exact hc
  have hccm : ∃ ms, s'.contC c = some ms ∧ e ∈ ms := by
    rcases hcase with ⟨loc, ms, hle, hcl, hmem, hcont⟩ | ⟨hle, hcont⟩
    · exact ⟨_, by rw [hcont c, if_pos rfl], by simp⟩
    · exact ⟨_, by rw [hcont c, if_pos rfl], by simp⟩
  obtain ⟨msc, hmsc, hemem⟩ := hccm
  refine ⟨hloce, ⟨msc, hmsc, hemem, (hInv' c msc e hc' hmsc hemem).2.1⟩, ?_, ?_⟩
  · intro prev pms hprev hple hpnec hpcont hpmem
    rcases hcase with ⟨loc, ms, hle, hcl, hmem, hcont⟩ | ⟨hle, hcont⟩
    · obtain rfl : prev = loc := Option.some_inj.mp (hple ▸ hle)
      rw [hcont prev, if_neg hpnec, if_pos rfl] at hpcont
      obtain rfl := Option.some_inj.mp hpcont
      have hcnt : ms.count e = 1 := (hInv prev ms e hprev hcl hmem).2.1
      have hno : e ∉ ms.erase e :=
        List.count_eq_zero.mp (by rw [List.count_erase_self, hcnt])
      exact hno hpmem
    · exact Option.noConfusion (hle ▸ hple)
  · intro c₀ ms₀ hc₀ hcont₀ hm₀
    exact ((hInv' c₀ ms₀ e hc₀ hcont₀ hm₀).1 c hloce).symm

/-- Witness for C1: moving the book (8) into the box (9) in the startup
world discharges every hypothesis of `move_spec`. -/
theorem move_spec_witness :
    moveBookBox.locC 8 = some 9 ∧
    (∃ ms, moveBookBox.contC 9 = some ms ∧ 8 ∈ ms ∧ ms.count 8 = 1) ∧
    (∀ prev pms, prev < startupScene.nextId → startupScene.locC 8 = some prev → prev ≠ 9 →
      moveBookBox.contC prev = some pms → 8 ∉ pms) ∧
    (∀ c₀ ms₀, c₀ < moveBookBox.nextId → moveBookBox.contC c₀ = some ms₀ →
      8 ∈ ms₀ → c₀ = 9) :=
  move_spec startupScene 8 9 moveBookBox (Inv_of_invB startupScene (by decide)) (by decide)
    (Or.inl (by decide)) rfl

/-- C2 counterexample: already in the world state constructed at startup
the plant (entity 0) is a member of the living room's (entity 4)
`Container` but carries no `Location` component at all, so the claimed
invariant `Location(m) == c` fails at startup. -/
theorem startup_members_unlinked_cx :
    membersFullyLinked startupScene = false ∧
    (startupScene.contC 4).isSome = true ∧
    0 ∈ (startupScene.contC 4).getD [] ∧
    startupScene.locC 0 = none := by
  decide

/-- C2 (amended): in the startup state and every state reachable from it
by commands, every member of a `Container` occurs in it exactly once;
every member that carries a `Location` points back at the hosting entity
and appears in no other entity's `Container` membership; members lacking
a `Location` carry an `Environment` component. -/
theorem reachable_inv (s : Scene) (h : Reachable s) : Inv s := by
  induction h with
  | refl => exact Inv_of_invB startupScene (by decide)
  | tail _ hstep ih =>
    obtain ⟨p, tokens, msg, _, hd⟩ := hstep
    exact dispatch_inv _ p tokens msg _ ih hd

/-- Witness for C2: the invariant at the reflexivity end of the
reachability relation, the startup state itself. -/
theorem reachable_inv_witness : Inv startupScene :=
  reachable_inv startupScene Relation.ReflTransGen.refl

/-- C3: for every direction `d` of the ten-direction table (with opposite
`rev`) and all entities `a`, `b` carrying a `Map`, after `maplink(a, d, b)`
returns, `Map(a)[d] = b` and `Map(b)[opposite(d)] = a`. -/
theorem maplink_spec (s : Scene) (a b : Nat) (d rev : String)
    (hd : List.lookup d reversemap = some rev)
    (ha : (s.mapC a).isSome = true) (hb : (s.mapC b).isSome = true) :
    ∃ s', maplink s a d b = some s' ∧
      ∃ mA mB, s'.mapC a = some mA ∧ s'.mapC b = some mB ∧
        List.lookup d mA = some b ∧ List.lookup rev mB = some a := by
  obtain ⟨ma, hma⟩ := Option.isSome_iff_exists.mp ha
  obtain ⟨mb, hmb⟩ := Option.isSome_iff_exists.mp hb
  have hrev : rev ≠ d := reversemap_ne d rev (lookup_mem _ _ _ hd)
  by_cases hab : a = b
  · subst hab
    have hmab : ma = mb := Option.some_inj.mp (hma ▸ hmb)
    subst hmab
    refine ⟨setMap (setMap s a (dictSet ma d a)) a (dictSet (dictSet ma d a) rev a),
      ?_, dictSet (dictSet ma d a) rev a, dictSet (dictSet ma d a) rev a,
      by simp [setMap], by simp [setMap], ?_, ?_⟩
    · simp [maplink, hd, hma, setMap]
    · rw [lookup_dictSet_ne _ _ _ _ (fun hh => hrev hh.symm)]
      exact lookup_dictSet_self _ _ _
    · exact lookup_dictSet_self _ _ _
  · refine ⟨setMap (setMap s a (dictSet ma d b)) b (dictSet mb rev a),
      ?_, dictSet ma d b, dictSet mb rev a,
      by simp [setMap, hab, Ne.symm hab], by simp [setMap], ?_, ?_⟩
    · simp [maplink, hd, hma, hmb, setMap, Ne.symm hab]
    · exact lookup_dictSet_self _ _ _
    · exact lookup_dictSet_self _ _ _

/-- Witness for C3: linking the living room (4) north to the garden (6)
in the startup world. -/
theorem maplink_spec_witness :
    ∃ s', maplink startupScene 4 ("north") 6 = some s' ∧
      ∃ mA mB, s'.mapC 4 = some mA ∧ s'.mapC 6 = some mB ∧
        List.lookup ("north") mA = some 6 ∧ List.lookup ("south") mB = some 4 :=
  maplink_spec startupScene 4 6 ("north") ("south") (by decide) (by decide) (by decide)

/-- C4: the input line `drop plant` in the startup world resolves the
plant (entity 0) by name, but the handler then trips the bare
`assert scene.has(thing, Location)` because the plant carries no
`Location` — the dispatch crashes (`none`) instead of returning a
response string, contradicting the claimed failure policy. -/
theorem drop_plant_crashes :
    startupScene.playerC 7 = true ∧
    findByName startupScene ("plant")
      ((startupScene.contC 7).getD [] ++ (startupScene.contC 4).getD []) = some 0 ∧
    startupScene.locC 0 = none ∧
    dispatch startupScene 7 [("drop"), ("plant")] = none := by
  exact ⟨by decide, by decide, by decide, rfl⟩

/-- C5 counterexample: when the argument text contains `" from "` twice,
Python's `name.split(" from ")` yields three parts and the two-variable
unpacking raises, so `take die from box from box` crashes (`none`)
instead of splitting at the first occurrence and returning a response
string. -/
theorem take_double_from_cx :
    pySplit (joinWith (" ") [("die"), ("from"), ("box"), ("from"), ("box")]) (" from ") =
      [("die"), ("box"), ("box")] ∧
    cmdTake startupScene 7 [("die"), ("from"), ("box"), ("from"), ("box")] = none := by
  refine ⟨by decide, rfl⟩

/-- C5 (amended): when the space-joined argument text splits on
`" from "` into exactly two parts — i.e. the separator occurs exactly
once — `take` uses the first part as the thing name and the second as
the container name, resolves the container by name over the combined
room-and-inventory scope, and the container resolution failures return response
strings; with two or more occurrences the unpacking of the split raises
instead. -/
theorem cmdTake_single_from_split (s : Scene) (p : Nat) (a : String) (rest : List String)
    (location : Nat) (pinv lms : List Nat) (n cname : String)
    (hloc : s.locC p = some location) (hpc : s.contC p = some pinv)
    (hlms : s.contC location = some lms)
    (hsplit : pySplit (joinWith (" ") (a :: rest)) (" from ") = [n, cname]) :
    cmdTake s p (a :: rest) =
      (match findByName s cname (lms ++ pinv) with
       | none => some (("There is no such container."), s)
       | some cEid =>
         match s.contC cEid with
         | none => some (("You cannot do that."), s)
         | some cms => takeFrom s p n cms) := by
  have hcs : containsSep (joinWith (" ") (a :: rest)) (" from ") = true := by
    rw [containsSep, hsplit]
    rfl
  simp only [cmdTake, hloc, hpc, hlms, hcs, hsplit, if_true]

/-- Witness for C5: `take die from box` in the startup world. -/
theorem cmdTake_single_from_split_witness :
    cmdTake startupScene 7 [("die"), ("from"), ("box")] =
      (match findByName startupScene ("box") ([0, 1, 2, 3, 7, 8, 9, 11] ++ []) with
       | none => some (("There is no such container."), startupScene)
       | some cEid =>
         match startupScene.contC cEid with
         | none => some (("You cannot do that."), startupScene)
         | some cms => takeFrom startupScene 7 ("die") cms) :=
  cmdTake_single_from_split startupScene 7 ("die") [("from"), ("box")] 4 []
    [0, 1, 2, 3, 7, 8, 9, 11] ("die") ("box") (by decide) (by decide) (by decide) (by decide)

/-- C6 counterexample: a resolved thing that carries `Environment` but
whose `Location` is the acting entity is answered with
"You already have that.", not "You are unable to take that." — the
already-have check precedes the Environment check. -/
theorem take_env_already_have_cx :
    (c6Scene.envC 2).isSome = true ∧
    cmdTake c6Scene 1 [("gadget")] = some (("You already have that."), c6Scene) := by
  refine ⟨by decide, rfl⟩

/-- C6 (amended): for every resolved thing, `take` returns
"You already have that." when the thing's `Location` is the actor, and
"You are unable to take that." when the thing carries `Environment` and
its `Location` is not the actor; in both rejection cases the returned
state is the input state unchanged, and only otherwise is
`move(thing, actor)` invoked. -/
theorem cmdTake_rejections (s : Scene) (p : Nat) (a : String) (rest : List String)
    (location : Nat) (pinv lms : List Nat) (thing : Nat)
    (hloc : s.locC p = some location) (hpc : s.contC p = some pinv)
    (hlms : s.contC location = some lms)
    (hnosep : containsSep (joinWith (" ") (a :: rest)) (" from ") = false)
    (hfind : findByName s (joinWith (" ") (a :: rest)) (lms ++ pinv) = some thing) :
    (s.locC thing = some p →
      cmdTake s p (a :: rest) = some (("You already have that."), s)) ∧
    (s.locC thing ≠ some p → (s.envC thing).isSome = true →
      cmdTake s p (a :: rest) = some (("You are unable to take that."), s)) ∧
    (s.locC thing ≠ some p → s.envC thing = none →
      cmdTake s p (a :: rest) = (move s thing p).map (fun s1 => (("Taken."), s1))) := by
  have hred : cmdTake s p (a :: rest) =
      takeFrom s p (joinWith (" ") (a :: rest)) (lms ++ pinv) := by
    simp only [cmdTake, hloc, hpc, hlms, hnosep, Bool.false_eq_true, if_false]
  refine ⟨?_, ?_, ?_⟩
  · intro h
    rw [hred]
    simp only [takeFrom, hfind, if_pos h]
  · intro h1 h2
    rw [hred]
    simp only [takeFrom, hfind, if_neg h1, if_pos h2]
  · intro h1 h2
    rw [hred]
    simp only [takeFrom, hfind, if_neg h1, h2]
    cases hmv : move s thing p <;> simp [hmv]

/-- Witness for C6: `take plant` in the startup world is rejected with
"You are unable to take that." and leaves the state unchanged. -/
theorem cmdTake_rejections_witness :
    cmdTake startupScene 7 [("plant")] =
      some (("You are unable to take that."), startupScene) :=
  (cmdTake_rejections startupScene 7 ("plant") [] 4 [] [0, 1, 2, 3, 7, 8, 9, 11] 0
    (by decide) (by decide) (by decide) (by decide) (by decide)).2.1
    (by decide) (by decide)

/-- C8: `go` with no argument returns an error message; an abbreviated
direction expands through the fixed table; a direction absent from the
location's `Map` answers "You cannot go this way." with the state
unchanged; otherwise the handler is exactly `move(actor, destination)`
followed by `look` with no arguments in the new state; and every
bare-direction command form equals `go` with the direction prepended. -/
theorem cmdGo_spec (s : Scene) (p : Nat) (location : Nat) (lmap : List (String × Nat))
    (hloc : s.locC p = some location) (hmap : s.mapC location = some lmap) :
    cmdGo s p [] = some (("You have to name a direction to go towards."), s) ∧
    (∀ a rest,
      (List.lookup (expandDir (joinWith (" ") (a :: rest))) lmap = none →
        cmdGo s p (a :: rest) = some (("You cannot go this way."), s)) ∧
      (∀ dest, List.lookup (expandDir (joinWith (" ") (a :: rest))) lmap = some dest →
        cmdGo s p (a :: rest) = (move s p dest).bind (fun s1 =>
          (cmdLook s1 p []).map (fun msg => (msg, s1))))) ∧
    (∀ ab full, List.lookup ab expansion = some full → expandDir ab = full) ∧
    ((∀ args, cmdNorth s p args = cmdGo s p (("north") :: args)) ∧
     (∀ args, cmdSouth s p args = cmdGo s p (("south") :: args)) ∧
     (∀ args, cmdWest s p args = cmdGo s p (("west") :: args)) ∧
     (∀ args, cmdEast s p args = cmdGo s p (("east") :: args)) ∧
     (∀ args, cmdNorthwest s p args = cmdGo s p (("northwest") :: args)) ∧
     (∀ args, cmdNortheast s p args = cmdGo s p (("northeast") :: args)) ∧
     (∀ args, cmdSouthwest s p args = cmdGo s p (("southwest") :: args)) ∧
     (∀ args, cmdSoutheast s p args = cmdGo s p (("southeast") :: args)) ∧
     (∀ args, cmdUp s p args = cmdGo s p (("up") :: args)) ∧
     (∀ args, cmdDown s p args = cmdGo s p (("down") :: args))) := by
  refine ⟨rfl, ?_, ?_, ⟨fun _ => rfl, fun _ => rfl, fun _ => rfl, fun _ => rfl, fun _ => rfl,
    fun _ => rfl, fun _ => rfl, fun _ => rfl, fun _ => rfl, fun _ => rfl⟩⟩
  · intro a rest
    constructor
    · intro h
      simp only [cmdGo, hloc, hmap, h]
    · intro dest h
      simp only [cmdGo, hloc, hmap, h]
      cases hmv : move s p dest with
      | none => simp [hmv]
      | some s1 => cases hlk : cmdLook s1 p [] <;> simp [hmv, hlk]
  · intro ab full h
    rw [expandDir, h]
    rfl

/-- Witness for C8: `go east` in the startup world (the living room only
has a west exit) is refused without a state change. -/
theorem cmdGo_spec_witness :
    cmdGo startupScene 7 [("east")] =
      some (("You cannot go this way."), startupScene) :=
  ((cmdGo_spec startupScene 7 4 [(("west"), 6)] (by decide) (by decide)).2.1
    ("east") []).1 (by decide)

/-- C9: under the look preconditions (actor has `Location` and
`Container`; the location has `Name`, `Description`, `Container`,
`Map`), dispatching `look` succeeds, leaves the world state unchanged,
and dispatching it again from the resulting state yields the identical
response string. -/
theorem cmdLook_idempotent (s : Scene) (p location : Nat)
    (hloc : s.locC p = some location)
    (hpc : (s.contC p).isSome = true)
    (hn : (s.nameC location).isSome = true)
    (hd : (s.descC location).isSome = true)
    (hc : (s.contC location).isSome = true)
    (hm : (s.mapC location).isSome = true) :
    ∃ msg s₁, dispatch s p [("look")] = some (msg, s₁) ∧ s₁ = s ∧
      dispatch s₁ p [("look")] = some (msg, s₁) := by
  obtain ⟨pinv, hpc'⟩ := Option.isSome_iff_exists.mp hpc
  obtain ⟨lname, hn'⟩ := Option.isSome_iff_exists.mp hn
  obtain ⟨ldesc, hd'⟩ := Option.isSome_iff_exists.mp hd
  obtain ⟨lms, hc'⟩ := Option.isSome_iff_exists.mp hc
  obtain ⟨lmap, hm'⟩ := Option.isSome_iff_exists.mp hm
  have hlk : ∃ m, cmdLook s p [] = some m := by
    simp only [cmdLook, hloc, hpc', hn', hd', hc', hm']
    exact ⟨_, rfl⟩
  obtain ⟨msg, hmsg⟩ := hlk
  refine ⟨msg, s, ?_, rfl, ?_⟩ <;>
    rw [dispatch_cons_eq, if_neg (by decide), if_pos (by decide), hmsg] <;> rfl

/-- Witness for C9: `look` twice in the startup world. -/
theorem cmdLook_idempotent_witness :
    ∃ msg s₁, dispatch startupScene 7 [("look")] = some (msg, s₁) ∧ s₁ = startupScene ∧
      dispatch s₁ 7 [("look")] = some (msg, s₁) :=
  cmdLook_idempotent startupScene 7 4 (by decide) (by decide) (by decide) (by decide)
    (by decide) (by decide)

/-- C10: `help` branches only on whether it received exactly one
argument: with exactly one argument it returns that command's help text
or the no-such-command error; with any other argument count — zero, two
or more — it returns the message listing all canonical command names,
never an error. -/
theorem cmdHelp_spec (args : List String) :
    (∀ c, args = [c] →
      cmdHelp args = (List.lookup c HELP).getD
        ("There is no such command. Try 'help' for a list or commands.")) ∧
    (args.length ≠ 1 →
      cmdHelp args = (HELP.map Prod.fst).foldl (fun msg cmd => msg ++ ("\n  ") ++ cmd)
        ("Get further help with 'help <command>'.\nThe following commands are available:")) := by
  constructor
  · rintro c rfl
    rw [cmdHelp]
    cases h : List.lookup c HELP <;> simp [h]
  · intro h
    match args with
    | [] => rfl
    | [c] => exact absurd rfl h
    | c1 :: c2 :: rest => rfl

/-- Witness for C10: `help a b` (two arguments) returns the command
list, not an error. -/
theorem cmdHelp_spec_witness :
    cmdHelp [("a"), ("b")] =
      (HELP.map Prod.fst).foldl (fun msg cmd => msg ++ ("\n  ") ++ cmd)
        ("Get further help with 'help <command>'.\nThe following commands are available:") :=
  (cmdHelp_spec [("a"), ("b")]).2 (by decide)

/-- C7: `findByName` returns the first entity in sequence order whose
`Name` matches the string case-insensitively, skipping entities without
a `Name`; it returns `none` exactly when no candidate matches.  The
first-match decomposition entails that of two candidates with identical
`Name` the earlier one is returned, never the later. -/
theorem findByName_spec (s : Scene) (name : String) (l : List Nat) :
    (∀ e, findByName s name l = some e →
        nameMatches s name e = true ∧
        ∃ l₁ l₂, l = l₁ ++ e :: l₂ ∧ ∀ x ∈ l₁, nameMatches s name x = false) ∧
    (findByName s name l = none ↔ ∀ e ∈ l, nameMatches s name e = false) := by
  induction l with
  | nil => simp [findByName]
  | cons hd tl ih =>
    by_cases h : nameMatches s name hd = true
    · constructor
      · intro e he
        rw [findByName, List.find?_cons_of_pos _ h] at he
        obtain rfl := Option.some_inj.mp he
        exact ⟨h, [], tl, rfl, by simp⟩
      · rw [findByName, List.find?_cons_of_pos _ h]
        constructor
        · intro hx
          exact absurd hx (by simp)
        · intro hall
          exact absurd (hall hd (List.mem_cons_self _ _)) (by simp [h])
    · have hf : nameMatches s name hd = false := by
        cases hq : nameMatches s name hd
        · rfl
        · exact absurd hq h
      constructor
      · intro e he
        rw [findByName, List.find?_cons_of_neg _ (by simp [hf])] at he
        obtain ⟨hm, l₁, l₂, heq, hfail⟩ := ih.1 e he
        refine ⟨hm, hd :: l₁, l₂, by rw [heq]; rfl, ?_⟩
        intro x hx
        rcases List.mem_cons.mp hx with rfl | hx
        · exact hf
        · exact hfail x hx
      · rw [findByName, List.find?_cons_of_neg _ (by simp [hf])]
        constructor
        · intro hnone x hx
          rcases List.mem_cons.mp hx with rfl | hx
          · exact hf
          · exact (ih.2.mp hnone) x hx
        · intro hall
          exact ih.2.mpr (fun x hx => hall x (List.mem_cons_of_mem _ hx))

/-- Witness for C7: two entities both named "gem"; `findByName` returns
the first (entity 0) and the decomposition puts it at the head. -/
theorem findByName_spec_witness :
    findByName dupScene ("gem") [0, 1] = some 0 ∧
    (nameMatches dupScene ("gem") 0 = true ∧
      ∃ l₁ l₂, ([0, 1] : List Nat) = l₁ ++ 0 :: l₂ ∧
        ∀ x ∈ l₁, nameMatches dupScene ("gem") x = false) :=
  ⟨by decide, (findByName_spec dupScene ("gem") [0, 1]).1 0 (by decide)⟩

end IFSpec
